import Mathlib

/-!
Verification of the processagent repository (Go) against its
natural-language specification, via a shallow embedding in Lean 4.

The embedding follows the Go source files:
  processagent.go : Tokenize, processWrapper (exec / callEnd / stopProcess /
                    runProcess), LocalProcessAgent.ProcessCommand
  endpoint.go     : MiddlewareInputPort.ExecuteMiddlewares
  cli.go          : Middleware / Handler decorators (RequestID,
                    RequestTimestamp, ResponseTimestamp, JSONResponse)

Go strings are scanned byte-by-byte; the embedding uses List Char, which
agrees with the Go code on ASCII input (all inputs appearing in the claims
are ASCII). Operating-system effects (process start, wait, signal, the
bytes a process writes to stdout/stderr) are abstracted into explicit
environment records passed to the embedded functions; everything else is
translated directly from the source.
-/

/-- Decidable equality for Except values, used to evaluate the embedded
tokenizer on concrete inputs. -/
instance {ε α : Type} [DecidableEq ε] [DecidableEq α] :
    DecidableEq (Except ε α) := fun x y =>
  match x, y with
  | Except.ok a, Except.ok b =>
    if h : a = b then isTrue (by rw [h])
    else isFalse (by intro he; cases he; exact h rfl)
  | Except.error a, Except.error b =>
    if h : a = b then isTrue (by rw [h])
    else isFalse (by intro he; cases he; exact h rfl)
  | Except.ok _, Except.error _ => isFalse (by intro he; cases he)
  | Except.error _, Except.ok _ => isFalse (by intro he; cases he)

namespace ProcessAgentSpec

/-- The double-quote character (byte 34), named to keep literals readable. -/
def dquote : Char := Char.ofNat 34

/-- The single-quote character (byte 39). -/
def squote : Char := Char.ofNat 39

/-- The backslash character (byte 92). -/
def bslash : Char := '\\'

/-- End-of-scan handling of Tokenize (processagent.go lines 297-304):
if the accumulated token is non-empty, a still-open string group is an
error, otherwise the token is appended; an empty accumulated token is
dropped and the token list is returned as is. -/
def tokenizeEnd (token : List Char) (tokens : List String) (strGroup : Bool) :
    Except String (List String) :=
  if token = [] then Except.ok tokens
  else if strGroup then Except.error "unclosed string group"
  else Except.ok (tokens ++ [String.mk token])

/-- One step of the Tokenize scan for a character that is not a backslash
(processagent.go lines 269-295), returning the updated scan state
(current token, emitted tokens, in-quote flag). A quote character toggles
the single in-quote boolean; a closing quote always emits the accumulated
token. Unquoted whitespace (space, tab, newline, carriage return) flushes
a non-empty token; quoted whitespace is accumulated; every other
character is accumulated. -/
def tokStep (c : Char) (token : List Char) (tokens : List String)
    (strGroup : Bool) : List Char × List String × Bool :=
  if c = dquote ∨ c = squote then
    if strGroup then ([], tokens ++ [String.mk token], false)
    else (token, tokens, true)
  else if c = ' ' ∨ c = '\t' ∨ c = '\n' ∨ c = '\r' then
    if strGroup then (token ++ [c], tokens, strGroup)
    else if token = [] then (token, tokens, strGroup)
    else ([], tokens ++ [String.mk token], strGroup)
  else (token ++ [c], tokens, strGroup)

/-- The character scan loop of Tokenize (processagent.go lines 253-296),
with the loop state passed explicitly. A backslash at the last position
stops the scan (the Go loop breaks); a backslash before a backslash or a
quote character inserts that character literally and consumes both; any
other backslash sequence keeps the backslash and consumes only it; every
other character is handled by tokStep. -/
def tokenizeAux : List Char → List Char → List String → Bool →
    Except String (List String)
  | [], token, tokens, strGroup => tokenizeEnd token tokens strGroup
  | [c], token, tokens, strGroup =>
    if c = bslash then tokenizeEnd token tokens strGroup
    else
      let st := tokStep c token tokens strGroup
      tokenizeAux [] st.1 st.2.1 st.2.2
  | c :: next :: rest2, token, tokens, strGroup =>
    if c = bslash then
      if next = bslash ∨ next = dquote ∨ next = squote then
        tokenizeAux rest2 (token ++ [next]) tokens strGroup
      else
        tokenizeAux (next :: rest2) (token ++ [bslash]) tokens strGroup
    else
      let st := tokStep c token tokens strGroup
      tokenizeAux (next :: rest2) st.1 st.2.1 st.2.2

/-- Tokenize on an explicit character list: fresh scan state. -/
def tokenizeList (l : List Char) : Except String (List String) :=
  tokenizeAux l [] [] false

/-- Tokenize (processagent.go lines 246-305): parses a command line string
into an argument vector. -/
def Tokenize (s : String) : Except String (List String) :=
  tokenizeList s.toList

/-- Request (cli.go): the incoming request wrapper. Timestamp is an
int64 in Go; no claim exercises overflow, so it is embedded as Int. -/
structure Request where
  ID : String
  Port : String
  Payload : String
  Timestamp : Int
deriving DecidableEq

/-- Response (cli.go): the response wrapper. The Error and ErrorCode
pointer fields (nil or pointing to a value) are embedded as Option. -/
structure Response where
  ID : String
  Port : String
  Payload : String
  Timestamp : Int
  Error : Option Bool
  ErrorCode : Option Int
deriving DecidableEq

/-- Whitespace predicate used by the embedding of strings.TrimSpace
(runProcess trims its command string before the emptiness check). Go
trims Unicode white space; the ASCII cases, which are the only ones the
claims exercise, are space, tab, newline, vertical tab, form feed and
carriage return. -/
def isSpaceChar (c : Char) : Bool :=
  c == ' ' || c == '\t' || c == '\n' || c == Char.ofNat 11 ||
    c == Char.ofNat 12 || c == '\r'

/-- Embedding of strings.TrimSpace: drop white space from both ends. -/
def trimSpace (s : String) : String :=
  String.mk (((s.toList.dropWhile isSpaceChar).reverse.dropWhile
    isSpaceChar).reverse)

/-- The operating-system behaviour of one process invocation, abstracted:
whether cmd.Start fails (and with what error text), whether cmd.Wait
fails (non-zero exit status or wait error), and the bytes the process
wrote to the standard error and standard output accumulators. -/
structure ExecEnv where
  startErr : Option String
  waitErr : Option String
  stderrOut : String
  stdoutOut : String
deriving DecidableEq

/-- The mutable state of a processWrapper that the claims observe: the
running flag, plus an instrumentation counter recording how many times
the on-end callback has fired (the agent always installs a non-nil
processEnds callback, so a fire of the callback and a call of callEnd
with running set coincide). -/
structure WState where
  running : Bool
  endFired : Nat
deriving DecidableEq

/-- callEnd (processagent.go lines 77-84): if the wrapper is running,
clear the flag and invoke the on-end callback; otherwise do nothing. -/
def callEnd (w : WState) : WState :=
  if w.running then { running := false, endFired := w.endFired + 1 }
  else w

/-- exec (processagent.go lines 92-127): refuse to run when already
running (this early return happens before the deferred callEnd is
registered); otherwise set the running flag, start the process, wait for
it, and return the pair (stdout text, error text). The deferred callEnd
runs on every later return path. Non-empty stderr is returned as the
error text even when the wait succeeded; stdout is returned only when
the stderr accumulator is empty and start and wait both succeeded. The
on-start callback is launched asynchronously after a successful start
and only touches the agent registry, so it is not part of this state. -/
def execP (w : WState) (env : ExecEnv) : String × String × WState :=
  if w.running then ("", "already running", w)
  else
    let w1 : WState := { w with running := true }
    match env.startErr with
    | some e => ("", e, callEnd w1)
    | none =>
      match env.waitErr with
      | some e => ("", e, callEnd w1)
      | none =>
        if env.stderrOut ≠ "" then ("", env.stderrOut, callEnd w1)
        else (env.stdoutOut, "", callEnd w1)

/-- The operating-system behaviour of stopProcess: whether the SIGTERM
signal call fails, and whether the subsequent Process.Wait fails. -/
structure StopEnv where
  signalErr : Bool
  waitErr : Option String
deriving DecidableEq

/-- stopProcess (processagent.go lines 131-148): callEnd is deferred
before the running check, so it runs on every path (firing the callback
only when the wrapper was running). A signal failure returns nil; a wait
failure returns that error; otherwise nil. -/
def stopProcess (w : WState) (env : StopEnv) : Option String × WState :=
  if w.running then
    if env.signalErr then (none, callEnd w)
    else
      match env.waitErr with
      | some e => (some e, callEnd w)
      | none => (none, callEnd w)
  else (none, callEnd w)

/-- Outcome of runProcess: Go can return an error, return an output
string, or panic (the index expression args[0] panics when Tokenize
returns an empty vector, e.g. for the command string consisting of one
double quote). -/
inductive RunOutcome where
  | crash : RunOutcome
  | err : String → RunOutcome
  | ok : String → RunOutcome
deriving DecidableEq

/-- runProcess (processagent.go lines 52-74): trim the command string,
fail with "no exec specified" when empty, tokenize it (propagating the
tokenizer error), then run exec on a fresh wrapper with the request
payload as stdin; a non-empty error string from exec becomes the
returned error, otherwise the output string is returned. The executable
and argument values only reach the operating system, whose behaviour env
abstracts, so they do not appear on the right-hand side. -/
def runProcess (req : Request) (execStr : String) (env : ExecEnv) :
    RunOutcome :=
  let trimmed := trimSpace execStr
  if trimmed = "" then RunOutcome.err "no exec specified"
  else
    match Tokenize trimmed with
    | Except.error e => RunOutcome.err e
    | Except.ok [] => RunOutcome.crash
    | Except.ok (_ :: _) =>
      let r := execP { running := false, endFired := 0 } env
      if r.2.1 ≠ "" then RunOutcome.err r.2.1 else RunOutcome.ok r.1

/-- The LocalProcessAgent state ProcessCommand reads: the configured
command template, the concurrency bound (a Go int, so possibly
negative), and the current size of the running-process registry. -/
structure AgentState where
  execCommand : String
  maxParallel : Int
  runningCount : Nat

/-- The admission check of ProcessCommand (processagent.go line 198):
the bound is nonzero and at most the current registry size. -/
def admissionRejected (p : AgentState) : Prop :=
  p.maxParallel ≠ 0 ∧ p.maxParallel ≤ (p.runningCount : Int)

instance (p : AgentState) : Decidable (admissionRejected p) := by
  unfold admissionRejected; infer_instance

/-- ProcessCommand (processagent.go lines 197-227): reject on admission
with the error "max number of workers reached" before creating a wrapper
and without touching the Response; otherwise build a fresh wrapper (its
callbacks only mutate the registry) and run it. The output becomes the
Response payload; a runProcess error sets the error flag, error code 500
and the error text as payload, and the function still returns nil. The
result is none exactly when Go would panic inside runProcess. -/
def ProcessCommand (p : AgentState) (req : Request) (resp : Response)
    (env : ExecEnv) : Option (Response × Option String) :=
  if admissionRejected p then
    some (resp, some "max number of workers reached")
  else
    match runProcess req p.execCommand env with
    | RunOutcome.crash => none
    | RunOutcome.err e =>
      some ({ resp with Payload := e, Error := some true, ErrorCode := some 500 }, none)
    | RunOutcome.ok out => some ({ resp with Payload := out }, none)

/-- The state a Middleware acts on: in Go a middleware receives pointers
to the Request and the Response and mutates them; the embedding passes
the pair explicitly. The context.Context argument is passed through
untouched by every middleware in the repository and is omitted. -/
structure MState where
  req : Request
  resp : Response
deriving DecidableEq

/-- Middleware (cli.go line 80): a stage mapping the shared
Request/Response state to its updated state plus an optional error. -/
abbrev Middleware := MState → MState × Option String

/-- Handler (cli.go line 94): a decorator of Middleware. -/
abbrev Handler := Middleware → Middleware

/-- RequestID (cli.go lines 113-122): pre-stage that stores a generated
random identifier on both the Request and the Response, then delegates
inward. The random string produced by GenerateRandomString is supplied
here as the explicit argument id. -/
def RequestID (id : String) : Handler := fun middleware s =>
  middleware { s with req := { s.req with ID := id },
                      resp := { s.resp with ID := id } }

/-- RequestTimestamp (cli.go lines 126-132): pre-stage that stamps the
current time (supplied explicitly as now) on the Request, then delegates
inward. -/
def RequestTimestamp (now : Int) : Handler := fun middleware s =>
  middleware { s with req := { s.req with Timestamp := now } }

/-- ResponseTimestamp (cli.go lines 136-142): post-stage that delegates
inward first and then stamps the current time (supplied explicitly as
now) on the Response, propagating the inner error. -/
def ResponseTimestamp (now : Int) : Handler := fun middleware s =>
  let r := middleware s
  ({ r.1 with resp := { r.1.resp with Timestamp := now } }, r.2)

/-- Hexadecimal digit (lowercase), for the control-character escapes of
the JSON encoder. -/
def hexDigit (n : Nat) : Char :=
  if n < 10 then Char.ofNat (48 + n) else Char.ofNat (87 + n)

/-- Go encoding/json escaping of a single character inside a JSON
string: quote, backslash, newline, carriage return and tab get two-byte
escapes; the HTML-sensitive characters and the remaining control
characters get unicode escapes; everything else passes through. -/
def escapeJSONChar (c : Char) : String :=
  if c = dquote then "\\\""
  else if c = bslash then "\\\\"
  else if c = '\n' then "\\n"
  else if c = '\r' then "\\r"
  else if c = '\t' then "\\t"
  else if c = '<' then "\\u003c"
  else if c = '>' then "\\u003e"
  else if c = '&' then "\\u0026"
  else if c.toNat < 32 then
    "\\u00" ++ String.mk [hexDigit (c.toNat / 16), hexDigit (c.toNat % 16)]
  else String.singleton c

/-- A Go JSON string literal for s. -/
def encodeJSONString (s : String) : String :=
  "\"" ++ String.join (s.toList.map escapeJSONChar) ++ "\""

/-- json.Marshal of a Response: fields in struct order; the two pointer
fields carry omitempty and are emitted only when non-nil. Marshalling a
Response cannot fail in Go (every field type is encodable), so the
encoder is total. -/
def encodeResponse (r : Response) : String :=
  "\x7b\"id\":" ++ encodeJSONString r.ID
    ++ ",\"port\":" ++ encodeJSONString r.Port
    ++ ",\"payload\":" ++ encodeJSONString r.Payload
    ++ ",\"timestamp\":" ++ toString r.Timestamp
    ++ (match r.Error with
        | none => ""
        | some b => ",\"error\":" ++ (if b then "true" else "false"))
    ++ (match r.ErrorCode with
        | none => ""
        | some n => ",\"errorCode\":" ++ toString n)
    ++ "\x7d"

/-- JSONResponse (cli.go lines 148-161): post-stage that delegates
inward; on an inner error it returns that error with the state exactly
as the inner call left it; on success it overwrites the Response payload
with the serialization of the whole Response. The marshal-error branch
of the Go code is unreachable (see encodeResponse). -/
def JSONResponse : Handler := fun middleware s =>
  match middleware s with
  | (s2, some e) => (s2, some e)
  | (s2, none) =>
    ({ s2 with resp := { s2.resp with
        Payload := encodeResponse s2.resp } }, none)

/-- Composition by repeated reassignment (the loop pattern
stage = h(stage) used with Handler values): a left fold applying each
decorator to the stage built so far, so the last-applied decorator ends
up outermost. Generic in the stage type so it also covers the
instrumented trace middlewares below. -/
def composeHandlers {α : Type} (hs : List (α → α)) (t : α) : α :=
  hs.foldl (fun m h => h m) t

/-- ExecuteMiddlewares (endpoint.go lines 51-58): run the registered
stages in order over the shared state; the first stage returning an
error stops the chain with that error; otherwise return nil. -/
def ExecuteMiddlewares : List Middleware → MState → MState × Option String
  | [], s => (s, none)
  | m :: ms, s =>
    match m s with
    | (s2, some e) => (s2, some e)
    | (s2, none) => ExecuteMiddlewares ms s2

/-- The state reached after running a prefix of the flat chain,
ignoring errors: the left fold of the stage state updates. -/
def runAllStages (ms : List Middleware) (s : MState) : MState :=
  ms.foldl (fun st m => (m st).1) s

/-- Trace alphabet for observing execution order of decorators: some l
is an action of the decorator labelled l, none is the terminal stage. -/
abbrev TraceState := List (Option Nat)

/-- A middleware over the instrumentation trace. -/
abbrev TMiddleware := TraceState → TraceState × Option String

/-- A decorator over the instrumentation trace. -/
abbrev THandler := TMiddleware → TMiddleware

/-- A pre-only decorator in the shape of RequestID and RequestTimestamp
(do the work, then delegate inward), recording its label before the
inward call. -/
def preStage (l : Nat) : THandler := fun m s => m (s ++ [some l])

/-- A post-only decorator in the shape of ResponseTimestamp and
JSONResponse (delegate inward, then do the work), recording its label
after the inward call returns. -/
def postStage (l : Nat) : THandler := fun m s =>
  let r := m s
  (r.1 ++ [some l], r.2)

/-- The terminal stage, recording the none marker. -/
def terminalStage : TMiddleware := fun s => (s ++ [none], none)

/-! ## Helper lemmas about the tokenizer scan -/

/-- A scan step on a non-backslash character is a tokStep state update,
whatever the rest of the input is. -/
lemma tokenizeAux_cons_step (c : Char) (rest : List Char)
    (t : List Char) (ts : List String) (g : Bool) (h : ¬ c = bslash) :
    tokenizeAux (c :: rest) t ts g =
      tokenizeAux rest (tokStep c t ts g).1 (tokStep c t ts g).2.1
        (tokStep c t ts g).2.2 := by
  cases rest with
  | nil => simp [tokenizeAux, h]
  | cons x xs => simp [tokenizeAux, h]

/-- Inside a string group, a character that is neither a quote nor a
backslash is accumulated onto the current token (whitespace included). -/
lemma tokStep_in_group (c : Char) (t : List Char) (ts : List String)
    (h1 : ¬ c = dquote) (h2 : ¬ c = squote) :
    tokStep c t ts true = (t ++ [c], ts, true) := by
  simp only [tokStep, h1, h2, false_or, or_self, if_false]
  split <;> rfl

/-- Scanning in-group input made of ordinary characters up to a closing
double quote emits the accumulated token with the scanned characters
appended, with no error. -/
lemma tokenizeAux_group (s : List Char) :
    ∀ (t : List Char) (ts : List String),
    (∀ c ∈ s, c ≠ dquote ∧ c ≠ squote ∧ c ≠ bslash) →
    tokenizeAux (s ++ [dquote]) t ts true =
      Except.ok (ts ++ [String.mk (t ++ s)]) := by
  induction s with
  | nil =>
    intro t ts _
    have hq : ¬ dquote = bslash := by decide
    rw [List.nil_append, tokenizeAux_cons_step dquote [] t ts true hq]
    simp [tokStep, tokenizeAux, tokenizeEnd]
  | cons c s ih =>
    intro t ts h
    have hc := h c (List.mem_cons_self c s)
    have hrest : ∀ x ∈ s, x ≠ dquote ∧ x ≠ squote ∧ x ≠ bslash :=
      fun x hx => h x (List.mem_cons_of_mem c hx)
    rw [List.cons_append,
      tokenizeAux_cons_step c (s ++ [dquote]) t ts true hc.2.2,
      tokStep_in_group c t ts hc.1 hc.2.1]
    rw [ih (t ++ [c]) ts hrest]
    simp

/-- Appending a single trailing backslash to backslash-free input does
not change the scan result: the final backslash only stops the loop. -/
lemma tokenizeAux_drop_trailing (s : List Char) :
    ∀ (t : List Char) (ts : List String) (g : Bool), bslash ∉ s →
    tokenizeAux (s ++ [bslash]) t ts g = tokenizeAux s t ts g := by
  induction s with
  | nil => intro t ts g _; simp [tokenizeAux]
  | cons c s ih =>
    intro t ts g hns
    have hc : ¬ c = bslash := by
      intro h; exact hns (h ▸ List.mem_cons_self c s)
    have h2 : bslash ∉ s := fun h => hns (List.mem_cons_of_mem c h)
    rw [List.cons_append,
      tokenizeAux_cons_step c (s ++ [bslash]) t ts g hc,
      tokenizeAux_cons_step c s t ts g hc]
    exact ih _ _ _ h2

/-! ## Claims about the tokenizer -/

/-- C2 counterexample: for the input consisting of a single double
quote, the scan reaches end-of-input inside a quoted region, yet
Tokenize returns an empty token list and no error, because the
unclosed-group check only fires when the accumulated token is
non-empty. -/
theorem claim_C2_counterexample :
    Tokenize "\"" = Except.ok ([] : List String) := by decide

/-- C2 (amended): the empty input yields an empty token list with no
error, and when the scan ends inside a quoted region the unclosed
string group error is returned exactly when the accumulated token is
non-empty; with an empty accumulated token the tokens scanned so far
are returned with no error. The spec example of an unclosed quote still
errors. -/
theorem claim_C2_unclosed_group :
    Tokenize "" = Except.ok []
    ∧ (∀ (t : List Char) (ts : List String), t ≠ [] →
        tokenizeAux [] t ts true = Except.error "unclosed string group")
    ∧ (∀ ts : List String, tokenizeAux [] [] ts true = Except.ok ts)
    ∧ Tokenize "ls \"foo" = Except.error "unclosed string group" := by
  refine ⟨by decide, ?_, fun ts => rfl, by decide⟩
  intro t ts ht
  simp [tokenizeAux, tokenizeEnd, ht]

/-- C2 witness: the amended theorem applied to a concrete in-quote end
state with the non-empty token a. -/
theorem claim_C2_witness :
    tokenizeAux [] ['a'] [] true = Except.error "unclosed string group" :=
  claim_C2_unclosed_group.2.1 ['a'] [] (by decide)

/-- C9: the in-quote state is one boolean not tied to the quote
character: a group opened by a single quote and made of ordinary
characters is closed by the next double quote, the quote characters are
stripped, and whitespace inside the group is kept in the token. The two
concrete parts check the spec example with matching double quotes and
the mixed-quote variant (open with a single quote, close with a double
quote) of the same command line. -/
theorem claim_C9_quote_groups :
    (∀ s : List Char, (∀ c ∈ s, c ≠ dquote ∧ c ≠ squote ∧ c ≠ bslash) →
      tokenizeList (squote :: (s ++ [dquote])) = Except.ok [String.mk s])
    ∧ Tokenize "ls \"-la ./\"" = Except.ok ["ls", "-la ./"]
    ∧ tokenizeList (['l', 's', ' '] ++ squote ::
        (['-', 'l', 'a', ' ', '.', '/'] ++ [dquote])) =
        Except.ok ["ls", "-la ./"] := by
  refine ⟨?_, by decide, by decide⟩
  intro s h
  have hq : ¬ squote = bslash := by decide
  unfold tokenizeList
  rw [tokenizeAux_cons_step squote (s ++ [dquote]) [] [] false hq]
  have hstep : tokStep squote [] [] false = ([], [], true) := by
    simp [tokStep]
  rw [hstep]
  rw [tokenizeAux_group s [] [] h]
  simp

/-- C9 witness: the quantified part applied to the character list of
the spec example token. -/
theorem claim_C9_witness :
    tokenizeList (squote :: (['-', 'l', 'a', ' ', '.', '/'] ++ [dquote])) =
      Except.ok [String.mk ['-', 'l', 'a', ' ', '.', '/']] :=
  claim_C9_quote_groups.1 ['-', 'l', 'a', ' ', '.', '/'] (by decide)

/-- C10 counterexample: the input made of a double quote, the letters
ab and a final unescaped backslash ends in an unescaped trailing
backslash, yet Tokenize produces the unclosed string group error rather
than silently dropping the backslash, because the scan stopped inside a
quoted region with a non-empty token. -/
theorem claim_C10_counterexample :
    Tokenize "\"ab\\" = Except.error "unclosed string group" := by decide

/-- C10 (amended): a trailing backslash that cannot be an escape target
(formalized for inputs with no other backslash) is silently dropped:
the result is exactly the result on the input without it, so the
backslash never appears in any token and the only possible error is the
unclosed-group error the rest of the input already produces. The
concrete parts: a trailing backslash after a plain token is dropped and
the token emitted without error, while an interior backslash before an
ordinary character passes through unchanged. -/
theorem claim_C10_trailing_backslash :
    (∀ s : List Char, bslash ∉ s →
      tokenizeList (s ++ [bslash]) = tokenizeList s)
    ∧ Tokenize "ab\\" = Except.ok ["ab"]
    ∧ Tokenize "a\\b" = Except.ok ["a\\b"] := by
  refine ⟨?_, by decide, by decide⟩
  intro s h
  exact tokenizeAux_drop_trailing s [] [] false h

/-- C10 witness: the quantified part applied to the input ab with a
trailing backslash. -/
theorem claim_C10_witness :
    tokenizeList (['a', 'b'] ++ [bslash]) = tokenizeList ['a', 'b'] :=
  claim_C10_trailing_backslash.1 ['a', 'b'] (by decide)

/-! ## Helper lemmas about the process wrapper -/

/-- On a wrapper that is not running, every exec path ends by running
the deferred callEnd on the running wrapper: the final state has the
flag cleared and the on-end counter incremented once. -/
lemma execP_final_state (w : WState) (env : ExecEnv)
    (h : w.running = false) :
    (execP w env).2.2 = { running := false, endFired := w.endFired + 1 } := by
  simp only [execP, h, Bool.false_eq_true, if_false]
  cases env.startErr with
  | some e => simp [callEnd]
  | none =>
    cases env.waitErr with
    | some e => simp [callEnd]
    | none =>
      by_cases hs : env.stderrOut = "" <;> simp [hs, callEnd]

/-- On a running wrapper, every stopProcess path runs the deferred
callEnd: flag cleared, on-end counter incremented once. -/
lemma stopProcess_final_state (w : WState) (env : StopEnv)
    (h : w.running = true) :
    (stopProcess w env).2 =
      { running := false, endFired := w.endFired + 1 } := by
  simp only [stopProcess, h, if_true]
  cases hsig : env.signalErr with
  | true => simp [callEnd, h]
  | false =>
    cases env.waitErr with
    | some e => simp [callEnd, h]
    | none => simp [callEnd, h]

/-! ## Claims about the process wrapper -/

/-- C3 counterexample: exec invoked on a wrapper that is already
running returns the already-running result without firing the on-end
callback at all (the Go defer is registered after that early return),
so the callback does not fire before exec returns on this path. -/
theorem claim_C3_counterexample :
    execP { running := true, endFired := 0 }
        { startErr := none, waitErr := none, stderrOut := "",
          stdoutOut := "" } =
      ("", "already running", { running := true, endFired := 0 }) := rfl

/-- C3 (amended): on every exec path taken from a not-running wrapper
(start failure, wait failure, non-empty stderr, success) the on-end
callback fires exactly once before exec returns; on the already-running
guard path exec returns without firing it; stopProcess fires it exactly
once when the wrapper is running and never when it is not, so over the
intended single-use lifetime (one exec, possibly followed by
stopProcess) the callback fires exactly once. -/
theorem claim_C3_on_end_once :
    (∀ (w : WState) (env : ExecEnv), w.running = false →
      (execP w env).2.2.endFired = w.endFired + 1
        ∧ (execP w env).2.2.running = false)
    ∧ (∀ (w : WState) (env : ExecEnv), w.running = true →
        execP w env = ("", "already running", w))
    ∧ (∀ (w : WState) (env : StopEnv), w.running = true →
        (stopProcess w env).2.endFired = w.endFired + 1
          ∧ (stopProcess w env).2.running = false)
    ∧ (∀ (w : WState) (env : StopEnv), w.running = false →
        (stopProcess w env).2 = w)
    ∧ (∀ (w : WState) (env : ExecEnv) (senv : StopEnv),
        w.running = false →
        (stopProcess (execP w env).2.2 senv).2.endFired =
          w.endFired + 1) := by
  refine ⟨?_, ?_, ?_, ?_, ?_⟩
  · intro w env h
    rw [execP_final_state w env h]
    exact ⟨rfl, rfl⟩
  · intro w env h
    simp [execP, h]
  · intro w env h
    rw [stopProcess_final_state w env h]
    exact ⟨rfl, rfl⟩
  · intro w env h
    simp [stopProcess, h, callEnd]
  · intro w env senv h
    rw [execP_final_state w env h]
    have h2 : (stopProcess
        { running := false, endFired := w.endFired + 1 } senv).2 =
        { running := false, endFired := w.endFired + 1 } := by
      simp [stopProcess, callEnd]
    rw [h2]

/-- C3 witness: the amended theorem applied to a fresh wrapper and a
successful run, alone and followed by a stopProcess call. -/
theorem claim_C3_witness :
    (execP { running := false, endFired := 0 }
      { startErr := none, waitErr := none, stderrOut := "",
        stdoutOut := "ok" }).2.2.endFired = 0 + 1
    ∧ (stopProcess (execP { running := false, endFired := 0 }
        { startErr := none, waitErr := none, stderrOut := "",
          stdoutOut := "ok" }).2.2
        { signalErr := false, waitErr := none }).2.endFired = 0 + 1 :=
  ⟨(claim_C3_on_end_once.1 _ _ rfl).1,
    claim_C3_on_end_once.2.2.2.2 _ _ _ rfl⟩

/-- C5 counterexample: an invocation in which the process wrote boom to
standard error but the wait failed (non-zero exit status) returns the
wait error text, not the stderr text, so stderr content is not returned
as the error on every invocation that produced stderr output. -/
theorem claim_C5_counterexample :
    (execP { running := false, endFired := 0 }
      { startErr := none, waitErr := some "exit status 1",
        stderrOut := "boom", stdoutOut := "out" }).2.1 = "exit status 1"
    ∧ ("exit status 1" : String) ≠ "boom" := by decide

/-- C5 (amended): when the process started and waited without error,
non-empty stderr output is returned as the error with an empty result
(stdout ignored) even though the exit status was zero; the stdout text
is returned as the result exactly when the stderr accumulator is empty
and start and wait succeeded, and any non-empty result can only arise
that way. -/
theorem claim_C5_stderr_priority (w : WState) (env : ExecEnv)
    (h : w.running = false) :
    (env.startErr = none → env.waitErr = none → env.stderrOut ≠ "" →
      (execP w env).1 = "" ∧ (execP w env).2.1 = env.stderrOut)
    ∧ (env.startErr = none → env.waitErr = none → env.stderrOut = "" →
      (execP w env).1 = env.stdoutOut ∧ (execP w env).2.1 = "")
    ∧ ((execP w env).1 ≠ "" →
      env.startErr = none ∧ env.waitErr = none ∧ env.stderrOut = ""
        ∧ (execP w env).1 = env.stdoutOut) := by
  refine ⟨?_, ?_, ?_⟩
  · intro h1 h2 h3
    simp [execP, h, h1, h2, h3]
  · intro h1 h2 h3
    simp [execP, h, h1, h2, h3]
  · intro hout
    simp only [execP, h, Bool.false_eq_true, if_false] at hout ⊢
    cases h1 : env.startErr with
    | some e => rw [h1] at hout; simp at hout
    | none =>
      rw [h1] at hout
      cases h2 : env.waitErr with
      | some e => rw [h2] at hout; simp at hout
      | none =>
        rw [h2] at hout
        by_cases h3 : env.stderrOut = ""
        · simp [h3] at hout ⊢
        · simp [h3] at hout

/-- C5 witness: the amended theorem applied to a run with zero exit
status and the stderr text warn: the result is empty and the error is
the stderr text. -/
theorem claim_C5_witness :
    (execP { running := false, endFired := 0 }
      { startErr := none, waitErr := none, stderrOut := "warn",
        stdoutOut := "out" }).1 = ""
    ∧ (execP { running := false, endFired := 0 }
      { startErr := none, waitErr := none, stderrOut := "warn",
        stdoutOut := "out" }).2.1 = "warn" :=
  (claim_C5_stderr_priority _ _ rfl).1 rfl rfl (by decide)

/-! ## Claims about the process agent -/

/-- C1: every runProcess failure (empty command, tokenizer failure,
start failure, non-empty stderr) is encoded into the Response as
Error true, ErrorCode 500 and the failure text as payload while
ProcessCommand returns nil, a successful run returns nil with the
output as payload, and the only non-nil error ProcessCommand ever
returns is the admission rejection. -/
theorem claim_C1_failures_encoded (p : AgentState) (req : Request)
    (resp : Response) (env : ExecEnv) :
    (¬ admissionRejected p → ∀ e,
      runProcess req p.execCommand env = RunOutcome.err e →
      ProcessCommand p req resp env =
        some ({ resp with Payload := e, Error := some true, ErrorCode := some 500 }, none))
    ∧ (∀ r, ProcessCommand p req resp env = some r → r.2 ≠ none →
        admissionRejected p ∧ r.2 = some "max number of workers reached")
    ∧ (¬ admissionRejected p → ∀ out,
        runProcess req p.execCommand env = RunOutcome.ok out →
        ProcessCommand p req resp env =
          some ({ resp with Payload := out }, none)) := by
  refine ⟨?_, ?_, ?_⟩
  · intro hadm e hrun
    simp [ProcessCommand, hadm, hrun]
  · intro r hr hne
    by_cases hadm : admissionRejected p
    · simp only [ProcessCommand, hadm, if_true, Option.some_inj] at hr
      exact ⟨hadm, by rw [← hr]⟩
    · exfalso
      simp only [ProcessCommand, hadm, if_false] at hr
      cases hrun : runProcess req p.execCommand env with
      | crash => rw [hrun] at hr; simp at hr
      | err e =>
        rw [hrun] at hr
        simp only [Option.some_inj] at hr
        rw [← hr] at hne
        simp at hne
      | ok out =>
        rw [hrun] at hr
        simp only [Option.some_inj] at hr
        rw [← hr] at hne
        simp at hne
  · intro hadm out hrun
    simp [ProcessCommand, hadm, hrun]

/-- C1 witness: the theorem applied to an unbounded agent whose process
writes oops to standard error: the Response carries the failure and the
call returns nil. -/
theorem claim_C1_witness :
    ProcessCommand
      { execCommand := "mycmd", maxParallel := 0, runningCount := 0 }
      { ID := "", Port := "", Payload := "", Timestamp := 0 }
      { ID := "", Port := "", Payload := "", Timestamp := 0,
        Error := none, ErrorCode := none }
      { startErr := none, waitErr := none, stderrOut := "oops",
        stdoutOut := "" } =
      some ({ ID := "", Port := "", Payload := "oops", Timestamp := 0,
              Error := some true, ErrorCode := some 500 }, none) :=
  (claim_C1_failures_encoded _ _ _ _).1 (by decide) "oops" (by decide)

/-- C4: when the bound is nonzero and the registry size is at or above
it, ProcessCommand fails immediately with the max-workers error,
returning the Response untouched and independently of anything the
process environment could do (no wrapper is run); when the bound is
zero or the registry size is below the bound there is no admission
rejection, and the returned error is nil. -/
theorem claim_C4_admission (p : AgentState) (req : Request)
    (resp : Response) (env : ExecEnv) :
    (admissionRejected p → ProcessCommand p req resp env =
      some (resp, some "max number of workers reached"))
    ∧ (admissionRejected p → ∀ env2 : ExecEnv,
        ProcessCommand p req resp env = ProcessCommand p req resp env2)
    ∧ ((p.maxParallel = 0 ∨ (p.runningCount : Int) < p.maxParallel) →
        ¬ admissionRejected p)
    ∧ (¬ admissionRejected p → ∀ r,
        ProcessCommand p req resp env = some r → r.2 = none) := by
  refine ⟨?_, ?_, ?_, ?_⟩
  · intro hadm
    simp [ProcessCommand, hadm]
  · intro hadm env2
    simp [ProcessCommand, hadm]
  · rintro (h | h) ⟨h1, h2⟩
    · exact h1 h
    · omega
  · intro hadm r hr
    simp only [ProcessCommand, hadm, if_false] at hr
    cases hrun : runProcess req p.execCommand env with
    | crash => rw [hrun] at hr; simp at hr
    | err e =>
      rw [hrun] at hr
      simp only [Option.some_inj] at hr
      rw [← hr]
    | ok out =>
      rw [hrun] at hr
      simp only [Option.some_inj] at hr
      rw [← hr]

/-! ## Helper lemmas and sample stages for the middleware claims -/

/-- Folding one more decorator applies it to the stage built so far. -/
lemma composeHandlers_cons {α : Type} (h : α → α) (hs : List (α → α))
    (t : α) : composeHandlers (h :: hs) t = composeHandlers hs (h t) := rfl

/-- Composing a list of pre-only decorators: the composed stage calls
the terminal on the trace extended by the labels in reverse application
order. -/
lemma composeHandlers_pre (ls : List Nat) :
    ∀ (t : TMiddleware) (s : TraceState),
    composeHandlers (ls.map preStage) t s =
      t (s ++ ls.reverse.map some) := by
  induction ls with
  | nil => intro t s; simp [composeHandlers]
  | cons l ls ih =>
    intro t s
    rw [List.map_cons, composeHandlers_cons, ih (preStage l t) s]
    simp [preStage, List.append_assoc]

/-- Composing a list of post-only decorators: the composed stage runs
the terminal and appends the labels in application order. -/
lemma composeHandlers_post (ls : List Nat) :
    ∀ (t : TMiddleware) (s : TraceState),
    composeHandlers (ls.map postStage) t s =
      ((t s).1 ++ ls.map some, (t s).2) := by
  induction ls with
  | nil => intro t s; simp [composeHandlers]
  | cons l ls ih =>
    intro t s
    rw [List.map_cons, composeHandlers_cons, ih (postStage l t) s]
    simp [postStage, List.append_assoc]

/-- A flat-chain stage that records its execution by setting the
Request ID, then succeeds. -/
def stageSetID : Middleware := fun s =>
  ({ s with req := { s.req with ID := "first" } }, none)

/-- A flat-chain stage that fails with the error boom. -/
def stageFail : Middleware := fun s => (s, some "boom")

/-- A flat-chain stage that records its execution by setting the
Response payload, then succeeds. -/
def stageSetPayload : Middleware := fun s =>
  ({ s with resp := { s.resp with Payload := "third" } }, none)

/-- A blank Request/Response pair, as a transport listener creates. -/
def sampleMState : MState :=
  { req := { ID := "", Port := "", Payload := "", Timestamp := 0 },
    resp := { ID := "", Port := "", Payload := "", Timestamp := 0,
              Error := none, ErrorCode := none } }

/-- A terminal stage in the shape of the spec JSON round-trip test:
sets the Response ID and timestamp, then succeeds. -/
def setIDStage : Middleware := fun s =>
  ({ s with resp := { s.resp with ID := "test-id", Timestamp := 1000 } },
    none)

/-- Running a prefix of the flat chain whose stages all succeed reaches
the folded state and continues with the rest of the chain. -/
lemma ExecuteMiddlewares_ok_lead (pre : List Middleware) :
    ∀ (rest : List Middleware) (s : MState),
    (∀ m ∈ pre, ∀ st : MState, (m st).2 = none) →
    ExecuteMiddlewares (pre ++ rest) s =
      ExecuteMiddlewares rest (runAllStages pre s) := by
  induction pre with
  | nil => intro rest s _; simp [runAllStages]
  | cons m pre ih =>
    intro rest s h
    have hm := h m (List.mem_cons_self m pre) s
    have hpre : ∀ m2 ∈ pre, ∀ st : MState, (m2 st).2 = none :=
      fun m2 hm2 st => h m2 (List.mem_cons_of_mem m hm2) st
    rcases hms : m s with ⟨s2, e⟩
    have he : e = none := by rw [hms] at hm; exact hm
    subst he
    simp only [List.cons_append, ExecuteMiddlewares, hms]
    rw [List.append_eq, ih rest s2 hpre]
    have hrun : runAllStages (m :: pre) s = runAllStages pre s2 := by
      simp [runAllStages, hms]
    rw [hrun]

/-! ## Claims about middleware composition -/

/-- C6: composing decorators by repeated reassignment makes the
last-applied decorator outermost (folding one more decorator wraps the
stage built so far), so pre-actions in the shape of RequestID and
RequestTimestamp run in reverse application order before the terminal,
and post-actions in the shape of ResponseTimestamp and JSONResponse run
in application order after the terminal; concretely, composing the
RequestID and RequestTimestamp decorators lets the terminal observe
both fields already set. -/
theorem claim_C6_decorator_order :
    (∀ (hs : List THandler) (h : THandler) (t : TMiddleware),
      composeHandlers (hs ++ [h]) t = h (composeHandlers hs t))
    ∧ (∀ (ls : List Nat) (s : TraceState),
      composeHandlers (ls.map preStage) terminalStage s =
        (s ++ ls.reverse.map some ++ [none], none))
    ∧ (∀ (ls : List Nat) (s : TraceState),
      composeHandlers (ls.map postStage) terminalStage s =
        (s ++ [none] ++ ls.map some, none))
    ∧ (∀ (id : String) (now : Int) (term : Middleware) (s : MState),
      composeHandlers [RequestID id, RequestTimestamp now] term s =
        term { req := { s.req with ID := id, Timestamp := now },
               resp := { s.resp with ID := id } }) := by
  refine ⟨?_, ?_, ?_, ?_⟩
  · intro hs h t
    simp [composeHandlers, List.foldl_append]
  · intro ls s
    rw [composeHandlers_pre]
    simp [terminalStage, List.append_assoc]
  · intro ls s
    rw [composeHandlers_post]
    simp [terminalStage, List.append_assoc]
  · intro id now term s
    rfl

/-- C7: JSONResponse serializes the whole Response (as the inner call
left it) into the Response payload exactly when the inner middleware
returned nil; on an inner error it returns that error unchanged and
performs no serialization. -/
theorem claim_C7_json_serialization (m : Middleware) (s : MState) :
    (∀ (s2 : MState) (e : String), m s = (s2, some e) →
      JSONResponse m s = (s2, some e))
    ∧ (∀ s2 : MState, m s = (s2, none) →
      JSONResponse m s =
        ({ s2 with resp := { s2.resp with
            Payload := encodeResponse s2.resp } }, none)) := by
  constructor
  · intro s2 e h
    simp [JSONResponse, h]
  · intro s2 h
    simp [JSONResponse, h]

/-- C7 witness: the theorem applied to a terminal that sets the
Response ID to test-id and the timestamp to 1000: the payload becomes
the serialization of that Response. -/
theorem claim_C7_witness :
    JSONResponse setIDStage sampleMState =
      ({ req := { ID := "", Port := "", Payload := "", Timestamp := 0 },
         resp := { ID := "test-id", Port := "",
                   Payload := "\x7b\"id\":\"test-id\",\"port\":\"\",\"payload\":\"\",\"timestamp\":1000\x7d",
                   Timestamp := 1000, Error := none,
                   ErrorCode := none } },
        none) := by
  have h := (claim_C7_json_serialization setIDStage sampleMState).2
    (setIDStage sampleMState).1 rfl
  exact h.trans (by decide)

/-- C8: the flat chain runs stages in registration order over the
shared state; when every stage of a prefix succeeds and the next stage
fails, the chain stops there, the returned error is that stage's error,
the earlier mutations (the folded state) remain visible, and the later
stages never contribute; when every stage succeeds the chain returns
nil with the folded state. -/
theorem claim_C8_flat_chain :
    (∀ (pre : List Middleware) (bad : Middleware)
      (post : List Middleware) (s : MState) (e : String),
      (∀ m ∈ pre, ∀ st : MState, (m st).2 = none) →
      (bad (runAllStages pre s)).2 = some e →
      ExecuteMiddlewares (pre ++ bad :: post) s =
        ((bad (runAllStages pre s)).1, some e))
    ∧ (∀ (ms : List Middleware) (s : MState),
      (∀ m ∈ ms, ∀ st : MState, (m st).2 = none) →
      ExecuteMiddlewares ms s = (runAllStages ms s, none)) := by
  constructor
  · intro pre bad post s e hpre hbad
    rw [ExecuteMiddlewares_ok_lead pre (bad :: post) s hpre]
    rcases hb : bad (runAllStages pre s) with ⟨s2, e2⟩
    rw [hb] at hbad
    simp only at hbad
    subst hbad
    simp [ExecuteMiddlewares, hb]
  · intro ms s h
    have h2 := ExecuteMiddlewares_ok_lead ms [] s h
    rw [List.append_nil] at h2
    exact h2

/-- C8 witness: three registered stages where the second fails with
boom: the first stage's mutation (Request ID set to first) is visible
in the returned state, the third stage's mutation is absent, and the
chain error is boom. -/
theorem claim_C8_witness :
    ExecuteMiddlewares [stageSetID, stageFail, stageSetPayload]
        sampleMState =
      ({ req := { ID := "first", Port := "", Payload := "",
                  Timestamp := 0 },
         resp := { ID := "", Port := "", Payload := "", Timestamp := 0,
                   Error := none, ErrorCode := none } },
        some "boom") := by
  have h := claim_C8_flat_chain.1 [stageSetID] stageFail
    [stageSetPayload] sampleMState "boom"
    (by intro m hm st; simp at hm; subst hm; rfl) rfl
  exact h.trans (by decide)

/-- C4 witness: the theorem applied to an agent with bound 2 and two
registered processes: the request is rejected with the max-workers
error and the Response is returned untouched. -/
theorem claim_C4_witness :
    ProcessCommand
      { execCommand := "cmd", maxParallel := 2, runningCount := 2 }
      { ID := "", Port := "", Payload := "", Timestamp := 0 }
      { ID := "", Port := "", Payload := "", Timestamp := 0,
        Error := none, ErrorCode := none }
      { startErr := none, waitErr := none, stderrOut := "",
        stdoutOut := "" } =
      some ({ ID := "", Port := "", Payload := "", Timestamp := 0,
              Error := none, ErrorCode := none },
        some "max number of workers reached") :=
  (claim_C4_admission _ _ _ _).1 (by decide)

end ProcessAgentSpec
